import Mathlib

/-!
Verification development for a 2-D rigid-body physics engine
(PlayRho / Box2D-fork lineages).

Shallow embedding conventions:
* machine floating-point values are idealized as exact rationals (`ℚ`)
  for the collision / solver arithmetic, and as reals (`ℝ`) for the
  angle-normalization function which involves π;
* `AlmostZero(x)` (`abs(x) <` smallest normal float) is idealized as `x = 0`;
* `signbit(x)` over exact rationals is `x < 0` (no negative zero exists);
* C++ `assert` statements are treated as preconditions of the operation.
-/

namespace PhysicsSpec

/-- Two-dimensional vector over exact rationals. -/
abbrev Vec2 := ℚ × ℚ

/-- Vector addition. -/
def vadd (a b : Vec2) : Vec2 := (a.1 + b.1, a.2 + b.2)

/-- Vector subtraction. -/
def vsub (a b : Vec2) : Vec2 := (a.1 - b.1, a.2 - b.2)

/-- Scalar multiplication of a vector. -/
def vscale (s : ℚ) (a : Vec2) : Vec2 := (s * a.1, s * a.2)

/-- Vector negation. -/
def vneg (a : Vec2) : Vec2 := (-a.1, -a.2)

/-- Dot product (the source's `Dot` / `b2Dot`). -/
def Dot (a b : Vec2) : ℚ := a.1 * b.1 + a.2 * b.2

/-- Planar cross product returning a scalar (the source's `Cross` / `b2Cross`). -/
def crossVV (a b : Vec2) : ℚ := a.1 * b.2 - a.2 * b.1

/-- Cross product of a vector with scalar 1: `b2Cross(v, 1) = (v.y, -v.x)`. -/
def crossV1 (a : Vec2) : Vec2 := (a.2, -a.1)

/-! ## Contact features and clip vertices
From `PlayRho/Collision/ContactFeature.hpp` usage in
`PlayRho/Collision/ClipList.cpp` (the header itself is not under src;
its record shape is determined by the uses in the clipping code and the
unit tests' `contactFeature.typeA/indexA/typeB/indexB` accesses). -/

/-- Contact feature type: vertex or face. -/
inductive CfType where
  | vertex
  | face
deriving DecidableEq, Repr

/-- Contact feature identifier carried by each manifold/clip point. -/
structure ContactFeature where
  typeA : CfType
  indexA : ℕ
  typeB : CfType
  indexB : ℕ
deriving DecidableEq, Repr

/-- Builds a vertex-face contact feature, as the source's
`GetVertexFaceContactFeature(a, b)`. -/
def GetVertexFaceContactFeature (a b : ℕ) : ContactFeature :=
  ⟨CfType.vertex, a, CfType.face, b⟩

/-- Builds a face-vertex contact feature (typeA face, typeB vertex). -/
def GetFaceVertexContactFeature (a b : ℕ) : ContactFeature :=
  ⟨CfType.face, a, CfType.vertex, b⟩

/-- Flips a contact feature, swapping the A and B roles. -/
def FlipContactFeature (cf : ContactFeature) : ContactFeature :=
  ⟨cf.typeB, cf.indexB, cf.typeA, cf.indexA⟩

/-- Vertex of a clip list: position and contact feature
(`ClipVertex` of `PlayRho/Collision/ClipList.hpp`). -/
structure ClipVertex where
  v : Vec2
  cf : ContactFeature
deriving DecidableEq, Repr

/-- Idealization of the source's `AlmostZero` over exact rationals:
the float version tests `abs(value) < minimum-normal`; with exact
arithmetic only zero itself is that small. -/
def almostZero (x : ℚ) : Bool := x = 0

/-- Idealization of `std::signbit` over exact rationals (no negative
zero exists in `ℚ`). -/
def signbit (x : ℚ) : Bool := x < 0

/-- Embeds `ClipSegmentToLine` of `src/PlayRho/Collision/ClipList.cpp`:
Sutherland-Hodgman clipping of a two-point segment against the line with
the given normal and offset.  Lists longer or shorter than two yield the
empty list (the source requires `size(vIn) == 2`). -/
def ClipSegmentToLine (vIn : List ClipVertex) (normal : Vec2) (offset : ℚ)
    (indexA : ℕ) : List ClipVertex :=
  match vIn with
  | [v0, v1] =>
    let distance0 := Dot normal v0.v - offset
    let distance1 := Dot normal v1.v - offset
    let keep0 : List ClipVertex :=
      if distance0 ≤ 0 ∨ almostZero distance0 then [v0] else []
    let keep1 : List ClipVertex :=
      if distance1 ≤ 0 ∨ almostZero distance1 then [v1] else []
    let vOut := keep0 ++ keep1
    if vOut.length < 2 ∧ signbit distance0 ≠ signbit distance1 then
      let interp := distance0 / (distance0 - distance1)
      let vertex := vadd v0.v (vscale interp (vsub v1.v v0.v))
      vOut ++ [⟨vertex, GetVertexFaceContactFeature indexA v0.cf.indexB⟩]
    else
      vOut
  | _ => []

/-! ## ArrayList
From `src/PlayRho/Common/ArrayList.hpp`: a `std::array`-backed
vector-like container whose maximum size is the template parameter.
The backing array is modelled as a `List` of length `N`; `m_size` is
the current element count. -/

/-- Embedding of `playrho::ArrayList<VALUE_TYPE, MAXSIZE>`. -/
structure ArrayList (α : Type) (N : ℕ) where
  m_size : ℕ
  m_elements : List α
deriving DecidableEq, Repr

namespace ArrayList

variable {α : Type} {N : ℕ}

/-- The source's `size()` getter: the number of elements added. -/
def size (l : ArrayList α N) : ℕ := l.m_size

/-- The source's `max_size()`: the `MAXSIZE` template parameter. -/
def max_size (_ : ArrayList α N) : ℕ := N

/-- The source's `add(value)`: appends when below capacity and reports
success; otherwise reports failure leaving the list unchanged. -/
def add (l : ArrayList α N) (value : α) : Bool × ArrayList α N :=
  if l.m_size < N then
    (true, ⟨l.m_size + 1, l.m_elements.set l.m_size value⟩)
  else
    (false, l)

/-- The source's `clear()`: resets the size to zero (elements are left
in the backing array, as in the source). -/
def clear (l : ArrayList α N) : ArrayList α N := ⟨0, l.m_elements⟩

/-- The source's `size(size_type value)` setter.  The source asserts
`value <= MAXSIZE`; the assertion is treated as a precondition and the
raw state change is embedded. -/
def setSize (l : ArrayList α N) (value : ℕ) : ArrayList α N :=
  ⟨value, l.m_elements⟩

end ArrayList

/-- An operation on an `ArrayList` out of the ones named by the claim:
`add`, `clear`, and the size-setting overload of `size`. -/
inductive ArrayListOp (α : Type) where
  | add (value : α)
  | clear
  | setSize (value : ℕ)
deriving DecidableEq, Repr

/-- Runs one `ArrayListOp` (discarding `add`'s Boolean result). -/
def runArrayListOp {α : Type} {N : ℕ} (l : ArrayList α N) :
    ArrayListOp α → ArrayList α N
  | ArrayListOp.add value => (l.add value).2
  | ArrayListOp.clear => l.clear
  | ArrayListOp.setSize value => l.setSize value

/-- Runs a sequence of `ArrayListOp`s left to right. -/
def runArrayListOps {α : Type} {N : ℕ} (l : ArrayList α N)
    (ops : List (ArrayListOp α)) : ArrayList α N :=
  ops.foldl runArrayListOp l

/-- The precondition the source asserts for each operation: the
size-setting call requires `value <= MAXSIZE`; `add` and `clear` have
none (`add` checks its own bound). -/
def ArrayListOpValid {α : Type} (N : ℕ) : ArrayListOp α → Prop
  | ArrayListOp.setSize value => value ≤ N
  | _ => True

/-- Decidability of the per-operation precondition. -/
instance arrayListOpValidDecidable {α : Type} (N : ℕ) :
    ∀ op : ArrayListOp α, Decidable (ArrayListOpValid N op)
  | ArrayListOp.add _ => isTrue trivial
  | ArrayListOp.clear => isTrue trivial
  | ArrayListOp.setSize v => Nat.decLe v N

/-! ## EdgeShape mass data
From `src/Box2D/Box2D/Collision/Shapes/EdgeShape.cpp`. -/

/-- Edge shape: only the two main vertices matter for `ComputeMass`
(the ghost vertices `m_vertex0`/`m_vertex3` are unused there). -/
structure EdgeShape where
  m_vertex1 : Vec2
  m_vertex2 : Vec2
deriving DecidableEq, Repr

/-- Mass data record: mass, center, rotational inertia `I`
(field order as in the fork's `MassData{mass, center, I}` constructor). -/
structure MassData where
  mass : ℚ
  center : Vec2
  I : ℚ
deriving DecidableEq, Repr

/-- Embeds `box2d::ComputeMass(const EdgeShape&, float_t)` of
`src/Box2D/Box2D/Collision/Shapes/EdgeShape.cpp`: mass 0, center the
midpoint of the two vertices, inertia 0; the density argument is unused. -/
def ComputeMass (shape : EdgeShape) (_density : ℚ) : MassData :=
  ⟨0, vscale (1/2) (vadd shape.m_vertex1 shape.m_vertex2), 0⟩

/-! ## Angle normalization
Modelled from the spec: the implementation of `GetNormalized(Angle)`
(`PlayRho/Common/Math.hpp`) is not under src; only its unit tests are
(`src/UnitTests/Math.cpp`, `src/Box2D/UnitTests/Angle.cpp`).  The model
follows the PlayRho lineage the tests document: reduce by a truncated
modulo of one rotation (2π), then shift by one rotation so the result
lands in the half-open interval the test comment states.  Angles are
idealized as exact reals. -/

/-- Truncation toward zero of a real number, as C++ `trunc`. -/
noncomputable def truncToInt (x : ℝ) : ℤ :=
  if 0 ≤ x then Int.floor x else Int.ceil x

/-- Modelled from the spec: `ModuloViaTrunc(dividend, divisor)` =
`dividend - divisor * trunc(dividend / divisor)` (truncated modulo). -/
noncomputable def ModuloViaTrunc (dividend divisor : ℝ) : ℝ :=
  dividend - divisor * (truncToInt (dividend / divisor) : ℝ)

/-- Modelled from the spec: `GetNormalized(Angle)` of the PlayRho
lineage.  Reduces the angle by a truncated modulo of one rotation, then
brings it into range by one conditional shift of 2π. -/
noncomputable def GetNormalized (θ : ℝ) : ℝ :=
  let oneRotation := 2 * Real.pi
  let a := ModuloViaTrunc θ oneRotation
  if a ≥ Real.pi then a - oneRotation
  else if a < -Real.pi then a + oneRotation
  else a

/-! ## Transformations (rotation + translation) -/

/-- Rotation as a cosine/sine pair (the source's `Rot`). -/
structure Rot where
  c : ℚ
  s : ℚ
deriving DecidableEq, Repr

/-- The identity rotation (`Rot_identity`). -/
def Rot_identity : Rot := ⟨1, 0⟩

/-- Rotates a vector (`b2Mul(q, v)`). -/
def RotVec (q : Rot) (v : Vec2) : Vec2 :=
  (q.c * v.1 - q.s * v.2, q.s * v.1 + q.c * v.2)

/-- Inverse-rotates a vector (`b2MulT(q, v)`). -/
def RotTVec (q : Rot) (v : Vec2) : Vec2 :=
  (q.c * v.1 + q.s * v.2, -q.s * v.1 + q.c * v.2)

/-- Transformation: translation plus rotation. -/
structure Transformation where
  p : Vec2
  q : Rot
deriving DecidableEq, Repr

/-- Applies a transformation to a point (`Transform(v, xf)` / `b2Mul(xf, v)`). -/
def Transform (v : Vec2) (xf : Transformation) : Vec2 :=
  vadd xf.p (RotVec xf.q v)

/-- Applies the inverse transformation (`InverseTransform` / `b2MulT(xf, v)`). -/
def InverseTransform (v : Vec2) (xf : Transformation) : Vec2 :=
  RotTVec xf.q (vsub v xf.p)

/-! ## Manifolds and the narrow phase
Modelled from the spec: `CollideShapes` of the Box2D-fork lineage
(`Box2D/Collision/CollideShapes.cpp`) is not under src; only its unit
tests are (`src/Box2D/UnitTests/Collision.cpp`).  The models follow
spec §4.2 and the manifold shape the tests exercise. -/

/-- Manifold type (`Manifold::e_unset/e_circles/e_faceA/e_faceB`). -/
inductive ManifoldType where
  | e_unset
  | e_circles
  | e_faceA
  | e_faceB
deriving DecidableEq, Repr

/-- A manifold point: local point plus contact feature (accumulated
impulses start at zero and are omitted). -/
structure ManifoldPoint where
  localPoint : Vec2
  contactFeature : ContactFeature
deriving DecidableEq, Repr

/-- Contact manifold.  `localNormal`/`localPoint` are `none` when the
source would leave them invalid (as `IsValid` checks in the tests). -/
structure Manifold where
  type : ManifoldType
  localNormal : Option Vec2
  localPoint : Option Vec2
  points : List ManifoldPoint
deriving DecidableEq, Repr

/-- The empty (unset) manifold. -/
def emptyManifold : Manifold := ⟨ManifoldType.e_unset, none, none, []⟩

/-- Circle shape: radius and local-center position (`CircleShape`). -/
structure CircleShape where
  radius : ℚ
  position : Vec2
deriving DecidableEq, Repr

/-- Squared length of a vector (`LengthSquared`). -/
def LengthSquared (v : Vec2) : ℚ := Dot v v

/-- Modelled from the spec (§4.2 circle-circle): manifold type
`circles`; localNormal invalid; localPoint = shape A's center; one
point at shape B's center with the (vertex 0, vertex 0) feature; the
empty manifold when the circles are farther apart than the sum of the
radii. -/
def CollideCircles (sA : CircleShape) (xfA : Transformation)
    (sB : CircleShape) (xfB : Transformation) : Manifold :=
  let pA := Transform sA.position xfA
  let pB := Transform sB.position xfB
  let totalRadius := sA.radius + sB.radius
  if LengthSquared (vsub pB pA) > totalRadius ^ 2 then
    emptyManifold
  else
    ⟨ManifoldType.e_circles, none, some sA.position,
     [⟨sB.position, ⟨CfType.vertex, 0, CfType.vertex, 0⟩⟩]⟩

/-- Convex polygon: CCW vertices with matching outward unit edge
normals (normal `i` belongs to the edge from vertex `i` to vertex
`i+1`), plus the polygon skin radius. -/
structure PolygonShape where
  vertices : List Vec2
  normals : List Vec2
  radius : ℚ
deriving DecidableEq, Repr

/-- Vertex accessor (out-of-range yields the origin; polygons in use
have at least three vertices). -/
def getVertex (p : PolygonShape) (i : ℕ) : Vec2 := p.vertices.getD i (0, 0)

/-- Normal accessor. -/
def getNormal (p : PolygonShape) (i : ℕ) : Vec2 := p.normals.getD i (0, 0)

/-- Signed separation of polygon 2 from face `i` of polygon 1: the
minimum over polygon 2's vertices of their distance along face `i`'s
outward normal. -/
def separationOfFace (p1 : PolygonShape) (xf1 : Transformation)
    (p2 : PolygonShape) (xf2 : Transformation) (i : ℕ) : ℚ :=
  let n := RotVec xf1.q (getNormal p1 i)
  let v1 := Transform (getVertex p1 i) xf1
  let ds := p2.vertices.map fun v => Dot n (vsub (Transform v xf2) v1)
  ds.foldl min (ds.headD 0)

/-- Modelled from the spec (§4.2 polygon-polygon): finds the face of
polygon 1 of maximum separation against polygon 2, returning the
separation and the face index (first maximal index, as the reference
algorithm updates only on strict improvement). -/
def FindMaxSeparation (p1 : PolygonShape) (xf1 : Transformation)
    (p2 : PolygonShape) (xf2 : Transformation) : ℚ × ℕ :=
  let seps := (List.range p1.vertices.length).map
    fun i => (separationOfFace p1 xf1 p2 xf2 i, i)
  seps.foldl (fun acc x => if x.1 > acc.1 then x else acc) (seps.headD (0, 0))

/-- Modelled from the spec: the incident edge of polygon 2 opposite
reference face `edge1` of polygon 1 — the edge whose normal is most
anti-parallel to the reference normal — as two world-space clip
vertices carrying (face `edge1`, vertex i) features. -/
def FindIncidentEdge (edge1 : ℕ) (p1 : PolygonShape) (xf1 : Transformation)
    (p2 : PolygonShape) (xf2 : Transformation) : List ClipVertex :=
  let normal1 := RotTVec xf2.q (RotVec xf1.q (getNormal p1 edge1))
  let dots := (List.range p2.vertices.length).map
    fun i => (Dot normal1 (getNormal p2 i), i)
  let best := dots.foldl (fun acc x => if x.1 < acc.1 then x else acc) (dots.headD (0, 0))
  let i1 := best.2
  let i2 := if i1 + 1 < p2.vertices.length then i1 + 1 else 0
  [⟨Transform (getVertex p2 i1) xf2, GetFaceVertexContactFeature edge1 i1⟩,
   ⟨Transform (getVertex p2 i2) xf2, GetFaceVertexContactFeature edge1 i2⟩]

/-- The linear slop used by the engine (0.005 length units). -/
def linearSlop : ℚ := 1 / 200

/-- Modelled from the spec (§4.2 polygon-polygon): find the reference
face maximizing separation in either direction (preferring B only on
separation better by a tolerance), clip the other polygon's incident
edge to the reference face's side planes via Sutherland-Hodgman, and
keep clipped vertices whose signed distance to the reference face is at
most the total skin radius; manifold type `faceA` or `faceB`
accordingly, flipped features in the `faceB` case.  The unit tangent of
the reference face is recovered exactly from its stored unit normal
(equivalent to normalizing the edge vector, with no square root). -/
def CollidePolygons (pA : PolygonShape) (xfA : Transformation)
    (pB : PolygonShape) (xfB : Transformation) : Manifold :=
  let totalRadius := pA.radius + pB.radius
  let sA := FindMaxSeparation pA xfA pB xfB
  if sA.1 > totalRadius then emptyManifold else
  let sB := FindMaxSeparation pB xfB pA xfA
  if sB.1 > totalRadius then emptyManifold else
  let k_tol := linearSlop / 10
  let flip := sB.1 > sA.1 + k_tol
  let poly1 := if flip then pB else pA
  let poly2 := if flip then pA else pB
  let xf1 := if flip then xfB else xfA
  let xf2 := if flip then xfA else xfB
  let edge1 := if flip then sB.2 else sA.2
  let mtype := if flip then ManifoldType.e_faceB else ManifoldType.e_faceA
  let incidentEdge := FindIncidentEdge edge1 poly1 xf1 poly2 xf2
  let iv1 := edge1
  let iv2 := if edge1 + 1 < poly1.vertices.length then edge1 + 1 else 0
  let v11 := getVertex poly1 iv1
  let v12 := getVertex poly1 iv2
  let localNormal := getNormal poly1 iv1
  let localTangent := (-localNormal.2, localNormal.1)
  let planePoint := vscale (1/2) (vadd v11 v12)
  let tangent := RotVec xf1.q localTangent
  let normal := crossV1 tangent
  let v11w := Transform v11 xf1
  let v12w := Transform v12 xf1
  let frontOffset := Dot normal v11w
  let sideOffset1 := -(Dot tangent v11w) + totalRadius
  let sideOffset2 := Dot tangent v12w + totalRadius
  let clipPoints1 := ClipSegmentToLine incidentEdge (vneg tangent) sideOffset1 iv1
  if clipPoints1.length < 2 then emptyManifold else
  let clipPoints2 := ClipSegmentToLine clipPoints1 tangent sideOffset2 iv2
  if clipPoints2.length < 2 then emptyManifold else
  let pts := clipPoints2.filterMap fun cp =>
    if Dot normal cp.v - frontOffset ≤ totalRadius then
      some (ManifoldPoint.mk (InverseTransform cp.v xf2)
        (if flip then FlipContactFeature cp.cf else cp.cf))
    else none
  ⟨mtype, some localNormal, some planePoint, pts⟩

/-! ## Collision filtering
Modelled from the spec (§4.3 Filtering): the `Filter` record and its
collide predicate (`PlayRho/Dynamics/Filter.hpp`) are not under src;
only a scene using them is (`src/Testbed/Tests/CollisionFiltering.cpp`). -/

/-- Collision filter: category bits, mask bits, group index. -/
structure Filter where
  categoryBits : ℕ
  maskBits : ℕ
  groupIndex : ℤ
deriving DecidableEq, Repr

/-- Modelled from the spec: two fixtures' filters allow collision iff —
group-index rule: if both group indices are non-zero and equal, collide
iff the index is positive; otherwise category/mask rule:
`(A.category & B.mask) != 0 and (B.category & A.mask) != 0`. -/
def ShouldCollide (fA fB : Filter) : Bool :=
  if fA.groupIndex ≠ 0 ∧ fA.groupIndex = fB.groupIndex then
    decide (fA.groupIndex > 0)
  else
    decide (fA.categoryBits &&& fB.maskBits ≠ 0) &&
      decide (fB.categoryBits &&& fA.maskBits ≠ 0)

/-! ## World locking discipline and Step
Modelled from the spec: `WorldImpl`'s member-function bodies
(`PlayRho/Dynamics/WorldImpl.cpp`) are not under src; only the class
declaration with its documented contracts is
(`src/PlayRho/Dynamics/WorldImpl.hpp`).  The model follows spec §4.7
("All mutation APIs refuse to modify state when the world is locked"),
§7 ("raised synchronously and leave the world unmodified"), and the
`Step` doc comment ("Calling this with a zero step time delta results
only in fixtures and bodies registered for proxy handling being
processed. No physics is performed." with both proxy queues empty as
postconditions). -/

/-- Body state: pose, velocities, and the acceleration accumulated from
applied forces. -/
structure BodyState where
  position : Vec2
  angle : ℚ
  linearVelocity : Vec2
  angularVelocity : ℚ
  linearAcceleration : Vec2
deriving DecidableEq, Repr

/-- Contact state: the per-contact accumulated impulses the claim
speaks of, plus the touching flag. -/
structure ContactState where
  normalImpulse : ℚ
  tangentImpulse : ℚ
  touching : Bool
deriving DecidableEq, Repr

/-- Joint record, abstracted to its body references. -/
structure JointRec where
  bodyA : ℕ
  bodyB : ℕ
deriving DecidableEq, Repr

/-- Shape record, abstracted to its vertex radius. -/
structure ShapeRec where
  vertexRadius : ℚ
deriving DecidableEq, Repr

/-- World state: the locked flag, the entity containers, the two
queues consumed by proxy handling, and the broad-phase tree abstracted
as its list of proxy identifiers. -/
structure WorldState where
  locked : Bool
  bodies : List BodyState
  joints : List JointRec
  shapes : List ShapeRec
  contacts : List ContactState
  bodiesForProxies : List ℕ
  fixturesForProxies : List (ℕ × ℕ)
  tree : List ℕ
deriving DecidableEq, Repr

/-- Error kinds surfaced by the world API (spec §7). -/
inductive WorldError where
  | wrongState
  | outOfRange
deriving DecidableEq, Repr

/-- The mutating API calls the claim enumerates. -/
inductive WorldOp where
  | createBody (b : BodyState)
  | createJoint (j : JointRec)
  | createShape (s : ShapeRec)
  | setBody (id : ℕ) (b : BodyState)
  | setJoint (id : ℕ) (j : JointRec)
  | setShape (id : ℕ) (s : ShapeRec)
  | destroyBody (id : ℕ)
  | destroyJoint (id : ℕ)
  | destroyShape (id : ℕ)
deriving DecidableEq, Repr

/-- Modelled from the spec: each mutating call first checks the locked
flag and fails with a wrong-state error leaving the world unchanged
(the `@throws WrongState` contracts of `WorldImpl.hpp`); when unlocked,
creates append, sets update the identified slot, destroys erase it
(out-of-range identifiers fail with an out-of-range error). -/
def runWorldOp (w : WorldState) (op : WorldOp) :
    Except WorldError Unit × WorldState :=
  if w.locked then (Except.error WorldError.wrongState, w)
  else
    match op with
    | WorldOp.createBody b =>
      (Except.ok (), { w with bodies := w.bodies ++ [b] })
    | WorldOp.createJoint j =>
      (Except.ok (), { w with joints := w.joints ++ [j] })
    | WorldOp.createShape s =>
      (Except.ok (), { w with shapes := w.shapes ++ [s] })
    | WorldOp.setBody id b =>
      if id < w.bodies.length then
        (Except.ok (), { w with bodies := w.bodies.set id b })
      else (Except.error WorldError.outOfRange, w)
    | WorldOp.setJoint id j =>
      if id < w.joints.length then
        (Except.ok (), { w with joints := w.joints.set id j })
      else (Except.error WorldError.outOfRange, w)
    | WorldOp.setShape id s =>
      if id < w.shapes.length then
        (Except.ok (), { w with shapes := w.shapes.set id s })
      else (Except.error WorldError.outOfRange, w)
    | WorldOp.destroyBody id =>
      if id < w.bodies.length then
        (Except.ok (), { w with bodies := w.bodies.eraseIdx id })
      else (Except.error WorldError.outOfRange, w)
    | WorldOp.destroyJoint id =>
      if id < w.joints.length then
        (Except.ok (), { w with joints := w.joints.eraseIdx id })
      else (Except.error WorldError.outOfRange, w)
    | WorldOp.destroyShape id =>
      if id < w.shapes.length then
        (Except.ok (), { w with shapes := w.shapes.eraseIdx id })
      else (Except.error WorldError.outOfRange, w)

/-- Step configuration, reduced to the integration period. -/
structure StepConf where
  dt : ℚ
deriving DecidableEq, Repr

/-- Modelled from the spec: queued proxy handling — consume the
bodies-for-proxies and fixtures-for-proxies queues, re-fitting the
broad-phase tree from them; bodies and contacts are untouched. -/
def processProxies (w : WorldState) : WorldState :=
  { w with
    tree := w.tree ++ w.bodiesForProxies ++ w.fixturesForProxies.map Prod.fst,
    bodiesForProxies := [],
    fixturesForProxies := [] }

/-- Modelled from the spec (the `Step` doc comment): barring
collisions a body integrates to velocity `v0 + a*t` and position
`p0 + v1*t`. -/
def integrateBody (dt : ℚ) (b : BodyState) : BodyState :=
  let v1 := vadd b.linearVelocity (vscale dt b.linearAcceleration)
  { b with
    linearVelocity := v1,
    position := vadd b.position (vscale dt v1),
    angle := b.angle + dt * b.angularVelocity }

/-- Modelled from the spec: the physics phases of a step with a
positive time delta, abstracted to the body integration the `Step` doc
comment specifies. -/
def doPhysics (w : WorldState) (conf : StepConf) : WorldState :=
  { w with bodies := w.bodies.map (integrateBody conf.dt) }

/-- Modelled from the spec: `Step` fails with a wrong-state error while
locked; otherwise it always performs the queued proxy handling and
performs the physics phases only for a non-zero time delta. -/
def Step (w : WorldState) (conf : StepConf) :
    Except WorldError Unit × WorldState :=
  if w.locked then (Except.error WorldError.wrongState, w)
  else
    let w1 := processProxies w
    if conf.dt ≠ 0 then (Except.ok (), doPhysics w1 conf)
    else (Except.ok (), w1)

/-! ## Prismatic joint velocity constraint solving
From `src/Box2D/Box2D/Dynamics/Joints/b2PrismaticJoint.cpp`
(`SolveVelocityConstraints`).  The 3×3/2×2 solve helpers mirror
`b2Mat33::Solve33`/`b2Mat33::Solve22` of `b2Math.h` (not under src;
modelled from the spec's "solves the 3×3 block system": Cramer's rule
with a zero result on a singular matrix, as the reference `b2Math`
defines them). -/

/-- Three-component vector (`b2Vec3`). -/
structure Vec3 where
  x : ℚ
  y : ℚ
  z : ℚ
deriving DecidableEq, Repr

/-- Addition of `b2Vec3` values. -/
def v3add (a b : Vec3) : Vec3 := ⟨a.x + b.x, a.y + b.y, a.z + b.z⟩

/-- Subtraction of `b2Vec3` values. -/
def v3sub (a b : Vec3) : Vec3 := ⟨a.x - b.x, a.y - b.y, a.z - b.z⟩

/-- Negation of a `b2Vec3` value. -/
def v3neg (a : Vec3) : Vec3 := ⟨-a.x, -a.y, -a.z⟩

/-- Scaling of a `b2Vec3` value. -/
def v3scale (s : ℚ) (a : Vec3) : Vec3 := ⟨s * a.x, s * a.y, s * a.z⟩

/-- Dot product for 3-vectors (`b2Dot`). -/
def dot3 (a b : Vec3) : ℚ := a.x * b.x + a.y * b.y + a.z * b.z

/-- Cross product for 3-vectors (`b2Cross`). -/
def cross3 (a b : Vec3) : Vec3 :=
  ⟨a.y * b.z - a.z * b.y, a.z * b.x - a.x * b.z, a.x * b.y - a.y * b.x⟩

/-- Matrix of size 3×3 stored by columns (`b2Mat33`). -/
structure Mat33 where
  ex : Vec3
  ey : Vec3
  ez : Vec3
deriving DecidableEq, Repr

/-- Determinant of a `Mat33` (as `Solve33` computes it). -/
def det33 (m : Mat33) : ℚ := dot3 m.ex (cross3 m.ey m.ez)

/-- Applies a `Mat33` to a `Vec3` (columns times components). -/
def mat33MulVec (m : Mat33) (x : Vec3) : Vec3 :=
  v3add (v3scale x.x m.ex) (v3add (v3scale x.y m.ey) (v3scale x.z m.ez))

/-- Embeds `b2Mat33::Solve33(b)`: Cramer's rule; a singular matrix yields the
zero vector (the reference leaves `det` at zero then). -/
def Solve33 (m : Mat33) (b : Vec3) : Vec3 :=
  let det0 := det33 m
  let det := if det0 ≠ 0 then 1 / det0 else 0
  ⟨det * dot3 b (cross3 m.ey m.ez),
   det * dot3 m.ex (cross3 b m.ez),
   det * dot3 m.ex (cross3 m.ey b)⟩

/-- Determinant of the upper-left 2×2 block of a `Mat33`. -/
def det22 (m : Mat33) : ℚ := m.ex.x * m.ey.y - m.ey.x * m.ex.y

/-- Applies the upper-left 2×2 block of a `Mat33` to a 2-vector. -/
def mat22MulVec (m : Mat33) (x : Vec2) : Vec2 :=
  (m.ex.x * x.1 + m.ey.x * x.2, m.ex.y * x.1 + m.ey.y * x.2)

/-- Embeds `b2Mat33::Solve22(b)`: solve the upper-left 2×2 block by Cramer's
rule; a singular block yields the zero vector. -/
def Solve22 (m : Mat33) (b : Vec2) : Vec2 :=
  let a11 := m.ex.x
  let a12 := m.ey.x
  let a21 := m.ex.y
  let a22 := m.ey.y
  let det0 := a11 * a22 - a12 * a21
  let det := if det0 ≠ 0 then 1 / det0 else 0
  (det * (a22 * b.1 - a12 * b.2), det * (a11 * b.2 - a21 * b.1))

/-- Clamping as `b2Clamp(a, low, high)`. -/
def b2Clamp (a low high : ℚ) : ℚ := max low (min a high)

/-- Limit state of a joint (`e_inactiveLimit` etc.). -/
inductive LimitState where
  | e_inactiveLimit
  | e_atLowerLimit
  | e_atUpperLimit
  | e_equalLimits
deriving DecidableEq, Repr

/-- The `b2PrismaticJoint` data that `SolveVelocityConstraints` reads
and writes: the Jacobian data and effective masses prepared by
`InitVelocityConstraints`, the accumulated impulses, and the
motor/limit configuration. -/
structure PrismaticJoint where
  m_perp : Vec2
  m_axis : Vec2
  m_s1 : ℚ
  m_s2 : ℚ
  m_a1 : ℚ
  m_a2 : ℚ
  m_invMassA : ℚ
  m_invMassB : ℚ
  m_invIA : ℚ
  m_invIB : ℚ
  m_K : Mat33
  m_motorMass : ℚ
  m_impulse : Vec3
  m_motorImpulse : ℚ
  m_enableMotor : Bool
  m_enableLimit : Bool
  m_limitState : LimitState
  m_motorSpeed : ℚ
  m_maxMotorForce : ℚ
deriving DecidableEq, Repr

/-- The two bodies' velocities the solver updates. -/
structure VelocityPair where
  vA : Vec2
  wA : ℚ
  vB : Vec2
  wB : ℚ
deriving DecidableEq, Repr

/-- The motor block at the top of `SolveVelocityConstraints` (lines
275-294): clamp the accumulated motor impulse to `dt * maxMotorForce`
and apply the increment to the velocities. -/
def prismaticMotorPhase (j : PrismaticJoint) (dt : ℚ) (vel : VelocityPair) :
    PrismaticJoint × VelocityPair :=
  if j.m_enableMotor ∧ j.m_limitState ≠ LimitState.e_equalLimits then
    let Cdot := Dot j.m_axis (vsub vel.vB vel.vA) + j.m_a2 * vel.wB - j.m_a1 * vel.wA
    let impulse0 := j.m_motorMass * (j.m_motorSpeed - Cdot)
    let oldImpulse := j.m_motorImpulse
    let maxImpulse := dt * j.m_maxMotorForce
    let newMotorImpulse := b2Clamp (oldImpulse + impulse0) (-maxImpulse) maxImpulse
    let impulse := newMotorImpulse - oldImpulse
    let P := vscale impulse j.m_axis
    let LA := impulse * j.m_a1
    let LB := impulse * j.m_a2
    ({ j with m_motorImpulse := newMotorImpulse },
     ⟨vsub vel.vA (vscale j.m_invMassA P), vel.wA - j.m_invIA * LA,
      vadd vel.vB (vscale j.m_invMassB P), vel.wB + j.m_invIB * LB⟩)
  else (j, vel)

/-- The first two rows of the velocity error: the perpendicular linear
row and the angular row (`Cdot1` at line 296). -/
def prismaticCdot1 (j : PrismaticJoint) (vel : VelocityPair) : Vec2 :=
  (Dot j.m_perp (vsub vel.vB vel.vA) + j.m_s2 * vel.wB - j.m_s1 * vel.wA,
   vel.wB - vel.wA)

/-- The limit row of the velocity error (`Cdot2` at line 301). -/
def prismaticCdot2 (j : PrismaticJoint) (vel : VelocityPair) : ℚ :=
  Dot j.m_axis (vsub vel.vB vel.vA) + j.m_a2 * vel.wB - j.m_a1 * vel.wA

/-- Embeds `b2PrismaticJoint::SolveVelocityConstraints` of
`src/Box2D/Box2D/Dynamics/Joints/b2PrismaticJoint.cpp` (lines 265-356):
motor phase, then — with an active limit — the 3×3 block solve with the
limit-row clamp and the 2×2 re-solve of the remaining rows, or — with
the limit inactive — the plain 2×2 solve; finally the impulse delta is
applied to the two bodies' velocities. -/
def SolveVelocityConstraints (j : PrismaticJoint) (dt : ℚ)
    (vel : VelocityPair) : PrismaticJoint × VelocityPair :=
  let mA := j.m_invMassA
  let mB := j.m_invMassB
  let iA := j.m_invIA
  let iB := j.m_invIB
  let motorRes := prismaticMotorPhase j dt vel
  let jm := motorRes.1
  let velm := motorRes.2
  let Cdot1 := prismaticCdot1 j velm
  if j.m_enableLimit ∧ j.m_limitState ≠ LimitState.e_inactiveLimit then
    let Cdot2 := prismaticCdot2 j velm
    let Cdot : Vec3 := ⟨Cdot1.1, Cdot1.2, Cdot2⟩
    let f1 := j.m_impulse
    let fsolve := v3add f1 (Solve33 j.m_K (v3neg Cdot))
    let fz :=
      if j.m_limitState = LimitState.e_atLowerLimit then max fsolve.z 0
      else if j.m_limitState = LimitState.e_atUpperLimit then min fsolve.z 0
      else fsolve.z
    let b := vsub (vneg Cdot1) (vscale (fz - f1.z) (j.m_K.ez.x, j.m_K.ez.y))
    let f2r := vadd (Solve22 j.m_K b) (f1.x, f1.y)
    let f2 : Vec3 := ⟨f2r.1, f2r.2, fz⟩
    let df := v3sub f2 f1
    let P := vadd (vscale df.x j.m_perp) (vscale df.z j.m_axis)
    let LA := df.x * j.m_s1 + df.y + df.z * j.m_a1
    let LB := df.x * j.m_s2 + df.y + df.z * j.m_a2
    ({ jm with m_impulse := f2 },
     ⟨vsub velm.vA (vscale mA P), velm.wA - iA * LA,
      vadd velm.vB (vscale mB P), velm.wB + iB * LB⟩)
  else
    let df := Solve22 j.m_K (vneg Cdot1)
    let f2 : Vec3 := ⟨j.m_impulse.x + df.1, j.m_impulse.y + df.2, j.m_impulse.z⟩
    let P := vscale df.1 j.m_perp
    let LA := df.1 * j.m_s1 + df.2
    let LB := df.1 * j.m_s2 + df.2
    ({ jm with m_impulse := f2 },
     ⟨vsub velm.vA (vscale mA P), velm.wA - iA * LA,
      vadd velm.vB (vscale mB P), velm.wB + iB * LB⟩)

/-- The full velocity-error vector of the prismatic block solve (the
solver's `Cdot` built from `Cdot1` and `Cdot2`). -/
def prismaticCdotVec (j : PrismaticJoint) (velm : VelocityPair) : Vec3 :=
  ⟨(prismaticCdot1 j velm).1, (prismaticCdot1 j velm).2, prismaticCdot2 j velm⟩

/-- The accumulated impulse after the unclamped 3×3 solve
(`f1 + Solve33(-Cdot)`, before the limit-row clamp). -/
def prismaticUnclamped (j : PrismaticJoint) (velm : VelocityPair) : Vec3 :=
  v3add j.m_impulse (Solve33 j.m_K (v3neg (prismaticCdotVec j velm)))

/-! ## Concrete fixtures used by the end-to-end scenarios and witnesses -/

/-- The square of half-extent 2 built by `PolygonShape(2, 2)`: vertices
CCW from bottom-right (as the unit test asserts), axis-aligned outward
unit normals, and the polygon skin radius (2 × linearSlop). -/
def squareShape : PolygonShape :=
  ⟨[(2, -2), (2, 2), (-2, 2), (-2, -2)],
   [(1, 0), (0, 1), (-1, 0), (0, -1)], 2 * linearSlop⟩

/-- Identity-rotation transform at x = −2. -/
def xfLeft : Transformation := ⟨(-2, 0), Rot_identity⟩

/-- Identity-rotation transform at x = +2. -/
def xfRight : Transformation := ⟨(2, 0), Rot_identity⟩

/-- A locked world with no contents. -/
def lockedWorldW : WorldState := ⟨true, [], [], [], [], [], [], []⟩

/-- An unlocked world with one body, one contact, and non-empty
bodies-for-proxies and fixtures-for-proxies queues. -/
def stepWorldW : WorldState :=
  ⟨false, [⟨(1, 2), 0, (3, 4), 5, (0, -10)⟩], [], [],
   [⟨1, 2, true⟩], [3], [(4, 5)], [0]⟩

/-- A prismatic joint at its lower limit with a diagonal effective-mass
matrix, used to witness the limit-solver theorem. -/
def prismaticJointW : PrismaticJoint :=
  { m_perp := (1, 0), m_axis := (0, 1)
    m_s1 := 0, m_s2 := 0, m_a1 := 0, m_a2 := 0
    m_invMassA := 1, m_invMassB := 1, m_invIA := 1, m_invIB := 1
    m_K := ⟨⟨2, 0, 0⟩, ⟨0, 2, 0⟩, ⟨0, 0, 2⟩⟩
    m_motorMass := 0
    m_impulse := ⟨0, 0, 0⟩, m_motorImpulse := 0
    m_enableMotor := false, m_enableLimit := true
    m_limitState := LimitState.e_atLowerLimit
    m_motorSpeed := 0, m_maxMotorForce := 0 }

/-- Concrete body velocities for the prismatic witness. -/
def prismaticVelW : VelocityPair := ⟨(1, 2), 3, (4, 5), 6⟩

/-! ## Theorems -/

/-- Helper for C9: running any sequence of `add`/`clear`/size-setting
operations from a size within bounds, with every size-setting argument
within bounds, keeps the size within bounds. -/
theorem runArrayListOps_size_le {α : Type} {N : ℕ} :
    ∀ (ops : List (ArrayListOp α)) (l : ArrayList α N),
      l.m_size ≤ N → (∀ op ∈ ops, ArrayListOpValid N op) →
      (runArrayListOps l ops).m_size ≤ N := by
  intro ops
  induction ops with
  | nil => intro l h _; exact h
  | cons op rest ih =>
    intro l h hv
    have hstep : (runArrayListOp l op).m_size ≤ N := by
      cases op with
      | add value =>
        by_cases hlt : l.m_size < N
        · simp [runArrayListOp, ArrayList.add, hlt]
          exact hlt
        · simp [runArrayListOp, ArrayList.add, hlt]
          exact h
      | clear => simp [runArrayListOp, ArrayList.clear]
      | setSize value =>
        have := hv (ArrayListOp.setSize value) (List.mem_cons_self _ _)
        simpa [runArrayListOp, ArrayList.setSize, ArrayListOpValid] using this
    have : runArrayListOps l (op :: rest) = runArrayListOps (runArrayListOp l op) rest := rfl
    rw [this]
    exact ih (runArrayListOp l op) hstep fun o ho => hv o (List.mem_cons_of_mem _ ho)

/-- C9: `add(value)` returns true and appends the value (incrementing
the size by one) when the size is below the maximum, and returns false
leaving size and elements unchanged when the size equals the maximum;
consequently `size()` never exceeds `max_size()` through any sequence
of `add`, `clear`, and size-setting operations (each size-setting call
respecting its asserted bound). -/
theorem arrayList_add_bounded {α : Type} {N : ℕ} (l : ArrayList α N) (v : α) :
    (l.m_size < N →
      l.add v = (true, ⟨l.m_size + 1, l.m_elements.set l.m_size v⟩)) ∧
    (l.m_size = N → l.add v = (false, l)) ∧
    (∀ ops : List (ArrayListOp α), l.size ≤ l.max_size →
      (∀ op ∈ ops, ArrayListOpValid N op) →
      (runArrayListOps l ops).size ≤ l.max_size) := by
  refine ⟨fun h => ?_, fun h => ?_, fun ops h hv => ?_⟩
  · simp [ArrayList.add, h]
  · simp [ArrayList.add, h]
  · exact runArrayListOps_size_le ops l h hv

/-- C9 witness: the three parts of `arrayList_add_bounded` at concrete
inputs over `ArrayList ℕ 2`. -/
theorem arrayList_add_bounded_witness :
    ((⟨0, [0, 0]⟩ : ArrayList ℕ 2).m_size < 2 ∧
      (⟨0, [0, 0]⟩ : ArrayList ℕ 2).add 7 = (true, ⟨1, [7, 0]⟩)) ∧
    ((⟨2, [5, 6]⟩ : ArrayList ℕ 2).m_size = 2 ∧
      (⟨2, [5, 6]⟩ : ArrayList ℕ 2).add 7 = (false, ⟨2, [5, 6]⟩)) ∧
    (runArrayListOps (⟨0, [0, 0]⟩ : ArrayList ℕ 2)
        [ArrayListOp.add 7, ArrayListOp.setSize 2, ArrayListOp.clear]).size ≤
      (⟨0, [0, 0]⟩ : ArrayList ℕ 2).max_size := by
  refine ⟨⟨by decide, ?_⟩, ⟨rfl, ?_⟩, ?_⟩
  · simpa using (arrayList_add_bounded (⟨0, [0, 0]⟩ : ArrayList ℕ 2) 7).1 (by decide)
  · simpa using (arrayList_add_bounded (⟨2, [5, 6]⟩ : ArrayList ℕ 2) 7).2.1 rfl
  · exact (arrayList_add_bounded (⟨0, [0, 0]⟩ : ArrayList ℕ 2) 7).2.2
      [ArrayListOp.add 7, ArrayListOp.setSize 2, ArrayListOp.clear]
      (by decide) (by decide)

/-- C10: for every edge shape and density, `ComputeMass` yields zero
mass, zero rotational inertia, and the midpoint of the edge's two
vertices as center; the result does not depend on the density, so edge
fixtures never contribute mass. -/
theorem edgeShape_computeMass_massless (shape : EdgeShape) (density : ℚ) :
    (ComputeMass shape density).mass = 0 ∧
    (ComputeMass shape density).I = 0 ∧
    (ComputeMass shape density).center =
      ((shape.m_vertex1.1 + shape.m_vertex2.1) / 2,
       (shape.m_vertex1.2 + shape.m_vertex2.2) / 2) ∧
    ∀ density2 : ℚ, ComputeMass shape density2 = ComputeMass shape density := by
  refine ⟨rfl, rfl, ?_, fun _ => rfl⟩
  simp only [ComputeMass, vscale, vadd, Prod.ext_iff]
  constructor <;> ring

/-- C7: the filter collide predicate is symmetric in its two arguments
— under the group-index rule (both indices non-zero and equal) and
under the category/mask rule alike. -/
theorem shouldCollide_symmetric (fA fB : Filter) :
    ShouldCollide fA fB = ShouldCollide fB fA := by
  unfold ShouldCollide
  by_cases h : fA.groupIndex ≠ 0 ∧ fA.groupIndex = fB.groupIndex
  · have h2 : fB.groupIndex ≠ 0 ∧ fB.groupIndex = fA.groupIndex := by
      refine ⟨?_, h.2.symm⟩
      rw [← h.2]
      exact h.1
    rw [if_pos h, if_pos h2, h.2]
  · have h2 : ¬(fB.groupIndex ≠ 0 ∧ fB.groupIndex = fA.groupIndex) := by
      intro hc
      refine h ⟨?_, hc.2.symm⟩
      rw [← hc.2]
      exact hc.1
    rw [if_neg h, if_neg h2, Bool.and_comm]

/-- C5: while the world is locked, every mutating API call (create,
set, destroy for bodies, joints, shapes) fails with the wrong-state
error and leaves the entire world state unchanged. -/
theorem worldLocked_mutation_rejected (w : WorldState) (op : WorldOp)
    (h : w.locked = true) :
    runWorldOp w op = (Except.error WorldError.wrongState, w) := by
  unfold runWorldOp
  rw [h]
  simp

/-- C5 witness: a locked world rejects `createBody` unchanged. -/
theorem worldLocked_mutation_rejected_witness :
    lockedWorldW.locked = true ∧
    runWorldOp lockedWorldW (WorldOp.createBody ⟨(0, 0), 0, (0, 0), 0, (0, 0)⟩) =
      (Except.error WorldError.wrongState, lockedWorldW) :=
  ⟨rfl, worldLocked_mutation_rejected lockedWorldW _ rfl⟩

/-- C8: a step with zero time delta succeeds, consumes the
bodies-for-proxies and fixtures-for-proxies queues (both empty
afterwards), and performs no physics — every body and every contact
(hence all positions, velocities, and accumulated impulses) is
unchanged. -/
theorem step_zero_dt_only_proxies (w : WorldState) (conf : StepConf)
    (hl : w.locked = false) (hdt : conf.dt = 0) :
    (Step w conf).1 = Except.ok () ∧
    (Step w conf).2.bodies = w.bodies ∧
    (Step w conf).2.contacts = w.contacts ∧
    (Step w conf).2.bodiesForProxies = [] ∧
    (Step w conf).2.fixturesForProxies = [] := by
  simp [Step, hl, hdt, processProxies]

/-- C8 witness: a zero-dt step of a world with non-empty proxy queues
leaves its body and contact unchanged and empties both queues. -/
theorem step_zero_dt_only_proxies_witness :
    stepWorldW.locked = false ∧ (StepConf.mk 0).dt = 0 ∧
    ((Step stepWorldW ⟨0⟩).1 = Except.ok () ∧
     (Step stepWorldW ⟨0⟩).2.bodies = stepWorldW.bodies ∧
     (Step stepWorldW ⟨0⟩).2.contacts = stepWorldW.contacts ∧
     (Step stepWorldW ⟨0⟩).2.bodiesForProxies = [] ∧
     (Step stepWorldW ⟨0⟩).2.fixturesForProxies = []) :=
  ⟨rfl, rfl, step_zero_dt_only_proxies stepWorldW ⟨0⟩ rfl rfl⟩

/-- Helper: a strictly positive distance satisfies neither keep
condition of the clipper. -/
theorem keepCond_false {d : ℚ} (h : 0 < d) : ¬(d ≤ 0 ∨ almostZero d = true) := by
  simp only [almostZero, decide_eq_true_eq, not_or]
  exact ⟨not_le.mpr h, h.ne'⟩

/-- C2 (amended): clipping a two-point segment keeps both endpoints
when both signed distances are ≤ 0; returns the empty list when both
are > 0; returns the strictly-inside endpoint together with the
computed intersection point when one distance is strictly negative and
the other strictly positive; and returns only the on-line endpoint when
one distance is exactly zero and the other strictly positive. -/
theorem clipSegmentToLine_cases (v0 v1 : ClipVertex) (normal : Vec2)
    (offset : ℚ) (indexA : ℕ) :
    (Dot normal v0.v - offset ≤ 0 ∧ Dot normal v1.v - offset ≤ 0 →
      ClipSegmentToLine [v0, v1] normal offset indexA = [v0, v1]) ∧
    (0 < Dot normal v0.v - offset ∧ 0 < Dot normal v1.v - offset →
      ClipSegmentToLine [v0, v1] normal offset indexA = []) ∧
    (Dot normal v0.v - offset < 0 ∧ 0 < Dot normal v1.v - offset →
      ClipSegmentToLine [v0, v1] normal offset indexA =
        [v0, ⟨vadd v0.v (vscale ((Dot normal v0.v - offset) /
              ((Dot normal v0.v - offset) - (Dot normal v1.v - offset)))
            (vsub v1.v v0.v)),
          GetVertexFaceContactFeature indexA v0.cf.indexB⟩]) ∧
    (0 < Dot normal v0.v - offset ∧ Dot normal v1.v - offset < 0 →
      ClipSegmentToLine [v0, v1] normal offset indexA =
        [v1, ⟨vadd v0.v (vscale ((Dot normal v0.v - offset) /
              ((Dot normal v0.v - offset) - (Dot normal v1.v - offset)))
            (vsub v1.v v0.v)),
          GetVertexFaceContactFeature indexA v0.cf.indexB⟩]) ∧
    (Dot normal v0.v - offset = 0 ∧ 0 < Dot normal v1.v - offset →
      ClipSegmentToLine [v0, v1] normal offset indexA = [v0]) ∧
    (0 < Dot normal v0.v - offset ∧ Dot normal v1.v - offset = 0 →
      ClipSegmentToLine [v0, v1] normal offset indexA = [v1]) := by
  refine ⟨fun h => ?_, fun h => ?_, fun h => ?_, fun h => ?_, fun h => ?_, fun h => ?_⟩
  all_goals simp only [ClipSegmentToLine]
  · rw [if_pos (Or.inl h.1), if_pos (Or.inl h.2)]
    simp
  · rw [if_neg (keepCond_false h.1), if_neg (keepCond_false h.2)]
    simp [signbit, not_lt.mpr h.1.le, not_lt.mpr h.2.le]
  · rw [if_pos (Or.inl h.1.le), if_neg (keepCond_false h.2)]
    simp [signbit, h.1, not_lt.mpr h.2.le]
  · rw [if_neg (keepCond_false h.1), if_pos (Or.inl h.2.le)]
    simp [signbit, h.2, not_lt.mpr h.1.le]
  · rw [if_pos (Or.inl h.1.le), if_neg (keepCond_false h.2)]
    simp [signbit, not_lt.mpr h.1.ge, not_lt.mpr h.2.le]
  · rw [if_neg (keepCond_false h.1), if_pos (Or.inl h.2.le)]
    simp [signbit, not_lt.mpr h.1.le, not_lt.mpr h.2.ge]

/-- C2 counterexample: with normal (1,0) and offset 0, the endpoint
(0,0) has signed distance 0 (keep side per the claim) and (1,0) has
signed distance 1 (cull side), so the endpoints are on different sides
in the claim's sense; yet the code returns the single on-line endpoint
rather than the keep-side endpoint together with an intersection point. -/
theorem clipSegmentToLine_counterexample :
    (Dot (1, 0) ((0 : ℚ), (0 : ℚ)) - 0 ≤ 0) ∧
    (0 < Dot (1, 0) ((1 : ℚ), (0 : ℚ)) - 0) ∧
    ClipSegmentToLine [⟨(0, 0), ⟨CfType.vertex, 0, CfType.vertex, 0⟩⟩,
        ⟨(1, 0), ⟨CfType.vertex, 0, CfType.vertex, 0⟩⟩] (1, 0) 0 0 =
      [⟨(0, 0), ⟨CfType.vertex, 0, CfType.vertex, 0⟩⟩] ∧
    (ClipSegmentToLine [⟨(0, 0), ⟨CfType.vertex, 0, CfType.vertex, 0⟩⟩,
        ⟨(1, 0), ⟨CfType.vertex, 0, CfType.vertex, 0⟩⟩] (1, 0) 0 0).length ≠ 2 := by
  refine ⟨by norm_num [Dot], by norm_num [Dot], ?_, ?_⟩ <;>
    norm_num [ClipSegmentToLine, Dot, almostZero, signbit, vadd, vsub, vscale,
      GetVertexFaceContactFeature]

/-- C2 witness: the strict-crossing case of `clipSegmentToLine_cases`
at a concrete input, with the computed intersection (0,0). -/
theorem clipSegmentToLine_cases_witness :
    (Dot (1, 0) ((-1 : ℚ), (0 : ℚ)) - 0 < 0 ∧ 0 < Dot (1, 0) ((1 : ℚ), (0 : ℚ)) - 0) ∧
    ClipSegmentToLine [⟨(-1, 0), ⟨CfType.vertex, 0, CfType.vertex, 0⟩⟩,
        ⟨(1, 0), ⟨CfType.vertex, 0, CfType.vertex, 0⟩⟩] (1, 0) 0 5 =
      [⟨(-1, 0), ⟨CfType.vertex, 0, CfType.vertex, 0⟩⟩,
       ⟨(0, 0), GetVertexFaceContactFeature 5 0⟩] := by
  constructor
  · constructor <;> norm_num [Dot]
  · have h := (clipSegmentToLine_cases ⟨(-1, 0), ⟨CfType.vertex, 0, CfType.vertex, 0⟩⟩
      ⟨(1, 0), ⟨CfType.vertex, 0, CfType.vertex, 0⟩⟩ (1, 0) 0 5).2.2.1
      ⟨by norm_num [Dot], by norm_num [Dot]⟩
    rw [h]
    norm_num [Dot, vadd, vsub, vscale]

/-- C3: any two overlapping circles (center distance at most the sum of
the radii) produce the circles-type manifold with invalid local normal,
local point at circle A's center, and exactly one point at circle B's
center carrying the (vertex 0, vertex 0) feature. -/
theorem collideCircles_overlapping (sA : CircleShape) (xfA : Transformation)
    (sB : CircleShape) (xfB : Transformation)
    (h : LengthSquared (vsub (Transform sB.position xfB) (Transform sA.position xfA)) ≤
      (sA.radius + sB.radius) ^ 2) :
    CollideCircles sA xfA sB xfB =
      ⟨ManifoldType.e_circles, none, some sA.position,
       [⟨sB.position, ⟨CfType.vertex, 0, CfType.vertex, 0⟩⟩]⟩ := by
  unfold CollideCircles
  rw [if_neg (not_lt.mpr h)]

/-- C3 witness: two unit circles centered at (11,−4) and (13,−4)
(the end-to-end scenario of the unit test). -/
theorem collideCircles_overlapping_witness :
    LengthSquared (vsub (Transform ((0 : ℚ), (0 : ℚ)) ⟨(13, -4), Rot_identity⟩)
        (Transform (0, 0) ⟨(11, -4), Rot_identity⟩)) ≤ ((1 : ℚ) + 1) ^ 2 ∧
    CollideCircles ⟨1, (0, 0)⟩ ⟨(11, -4), Rot_identity⟩ ⟨1, (0, 0)⟩ ⟨(13, -4), Rot_identity⟩ =
      ⟨ManifoldType.e_circles, none, some (0, 0),
       [⟨(0, 0), ⟨CfType.vertex, 0, CfType.vertex, 0⟩⟩]⟩ := by
  constructor
  · norm_num [LengthSquared, Dot, vsub, Transform, vadd, RotVec, Rot_identity]
  · exact collideCircles_overlapping ⟨1, (0, 0)⟩ ⟨(11, -4), Rot_identity⟩
      ⟨1, (0, 0)⟩ ⟨(13, -4), Rot_identity⟩
      (by norm_num [LengthSquared, Dot, vsub, Transform, vadd, RotVec, Rot_identity])

set_option maxHeartbeats 1000000 in
/-- C4: two identical half-extent-2 squares at x = −2 and x = +2 with
identity rotation collide into a faceA manifold with local normal
(1,0), local point (2,0), and exactly two points at local (−2,+2) and
(−2,−2) with contact features (face 0, vertex 2) and (face 0, vertex 3). -/
theorem collidePolygons_touchingSquares :
    CollidePolygons squareShape xfLeft squareShape xfRight =
      ⟨ManifoldType.e_faceA, some (1, 0), some (2, 0),
       [⟨(-2, 2), ⟨CfType.face, 0, CfType.vertex, 2⟩⟩,
        ⟨(-2, -2), ⟨CfType.face, 0, CfType.vertex, 3⟩⟩]⟩ := by
  norm_num [CollidePolygons, FindMaxSeparation, separationOfFace, FindIncidentEdge,
    getVertex, getNormal, ClipSegmentToLine, Dot, vadd, vsub, vscale, vneg, crossV1,
    RotVec, RotTVec, Transform, InverseTransform, Rot_identity, linearSlop,
    almostZero, signbit, GetFaceVertexContactFeature, GetVertexFaceContactFeature,
    FlipContactFeature, emptyManifold, squareShape, xfLeft, xfRight,
    List.range_succ, min_def, max_def, List.filterMap_cons, List.filterMap_nil]

/-- Helper: Cramer's rule as implemented by `Solve33` solves the 3×3
system whenever the determinant is non-zero. -/
theorem Solve33_sound (m : Mat33) (b : Vec3) (hdet : det33 m ≠ 0) :
    mat33MulVec m (Solve33 m b) = b := by
  obtain ⟨b1, b2, b3⟩ := b
  simp only [det33, dot3, cross3] at hdet
  simp only [Solve33, mat33MulVec, v3add, v3scale, det33, dot3, cross3]
  rw [if_pos hdet]
  simp only [Vec3.mk.injEq]
  refine ⟨?_, ?_, ?_⟩ <;> field_simp <;> ring

/-- Helper: `Solve22` solves the upper-left 2×2 block whenever the
block determinant is non-zero. -/
theorem Solve22_sound (m : Mat33) (b : Vec2) (hdet : det22 m ≠ 0) :
    mat22MulVec m (Solve22 m b) = b := by
  obtain ⟨b1, b2⟩ := b
  simp only [det22] at hdet
  simp only [Solve22, mat22MulVec, det22]
  rw [if_pos hdet]
  simp only [Prod.mk.injEq]
  refine ⟨?_, ?_⟩ <;> field_simp <;> ring

/-- Helper: cancellation for 3-vectors. -/
theorem v3add_sub_cancel (a x : Vec3) : v3sub (v3add a x) a = x := by
  obtain ⟨x1, x2, x3⟩ := x
  simp only [v3add, v3sub, Vec3.mk.injEq]
  refine ⟨by ring, by ring, by ring⟩

/-- C6: with an active limit, the prismatic velocity solver's 3×3 block
solve is a solution of the block system (pre-clamp, when the system is
nonsingular); the accumulated limit-row impulse is clamped to ≥ 0 at
the lower limit, ≤ 0 at the upper limit, and left unconstrained at
equal limits; the remaining two rows are re-solved against the
right-hand side with the clamped limit-row contribution folded in; and
the resulting impulse delta is what is applied to the bodies'
velocities. -/
theorem prismaticLimit_blockSolve (j : PrismaticJoint) (dt : ℚ) (vel : VelocityPair)
    (hLimit : j.m_enableLimit = true)
    (hActive : j.m_limitState ≠ LimitState.e_inactiveLimit) :
    (det33 j.m_K ≠ 0 →
      mat33MulVec j.m_K
          (v3sub (prismaticUnclamped j (prismaticMotorPhase j dt vel).2) j.m_impulse) =
        v3neg (prismaticCdotVec j (prismaticMotorPhase j dt vel).2)) ∧
    (j.m_limitState = LimitState.e_atLowerLimit →
      (SolveVelocityConstraints j dt vel).1.m_impulse.z =
          max (prismaticUnclamped j (prismaticMotorPhase j dt vel).2).z 0 ∧
        0 ≤ (SolveVelocityConstraints j dt vel).1.m_impulse.z) ∧
    (j.m_limitState = LimitState.e_atUpperLimit →
      (SolveVelocityConstraints j dt vel).1.m_impulse.z =
          min (prismaticUnclamped j (prismaticMotorPhase j dt vel).2).z 0 ∧
        (SolveVelocityConstraints j dt vel).1.m_impulse.z ≤ 0) ∧
    (j.m_limitState = LimitState.e_equalLimits →
      (SolveVelocityConstraints j dt vel).1.m_impulse.z =
        (prismaticUnclamped j (prismaticMotorPhase j dt vel).2).z) ∧
    (det22 j.m_K ≠ 0 →
      mat22MulVec j.m_K
          ((SolveVelocityConstraints j dt vel).1.m_impulse.x - j.m_impulse.x,
           (SolveVelocityConstraints j dt vel).1.m_impulse.y - j.m_impulse.y) =
        vsub (vneg (prismaticCdot1 j (prismaticMotorPhase j dt vel).2))
          (vscale ((SolveVelocityConstraints j dt vel).1.m_impulse.z - j.m_impulse.z)
            (j.m_K.ez.x, j.m_K.ez.y))) ∧
    ((SolveVelocityConstraints j dt vel).2.vA =
        vsub (prismaticMotorPhase j dt vel).2.vA
          (vscale j.m_invMassA
            (vadd
              (vscale (v3sub (SolveVelocityConstraints j dt vel).1.m_impulse j.m_impulse).x
                j.m_perp)
              (vscale (v3sub (SolveVelocityConstraints j dt vel).1.m_impulse j.m_impulse).z
                j.m_axis))) ∧
     (SolveVelocityConstraints j dt vel).2.wA =
        (prismaticMotorPhase j dt vel).2.wA -
          j.m_invIA *
            ((v3sub (SolveVelocityConstraints j dt vel).1.m_impulse j.m_impulse).x * j.m_s1 +
              (v3sub (SolveVelocityConstraints j dt vel).1.m_impulse j.m_impulse).y +
              (v3sub (SolveVelocityConstraints j dt vel).1.m_impulse j.m_impulse).z * j.m_a1) ∧
     (SolveVelocityConstraints j dt vel).2.vB =
        vadd (prismaticMotorPhase j dt vel).2.vB
          (vscale j.m_invMassB
            (vadd
              (vscale (v3sub (SolveVelocityConstraints j dt vel).1.m_impulse j.m_impulse).x
                j.m_perp)
              (vscale (v3sub (SolveVelocityConstraints j dt vel).1.m_impulse j.m_impulse).z
                j.m_axis))) ∧
     (SolveVelocityConstraints j dt vel).2.wB =
        (prismaticMotorPhase j dt vel).2.wB +
          j.m_invIB *
            ((v3sub (SolveVelocityConstraints j dt vel).1.m_impulse j.m_impulse).x * j.m_s2 +
              (v3sub (SolveVelocityConstraints j dt vel).1.m_impulse j.m_impulse).y +
              (v3sub (SolveVelocityConstraints j dt vel).1.m_impulse j.m_impulse).z * j.m_a2)) := by
  have hcond : j.m_enableLimit = true ∧ j.m_limitState ≠ LimitState.e_inactiveLimit :=
    ⟨hLimit, hActive⟩
  constructor
  · intro hdet
    rw [prismaticUnclamped, v3add_sub_cancel]
    exact Solve33_sound j.m_K _ hdet
  · simp only [SolveVelocityConstraints]
    rw [if_pos hcond]
    refine ⟨fun hS => ?_, fun hS => ?_, fun hS => ?_, fun hdet => ?_, ?_, ?_, ?_, ?_⟩
    · simp only [hS]
      simp [prismaticUnclamped, prismaticCdotVec, le_max_right]
    · simp only [hS]
      simp [prismaticUnclamped, prismaticCdotVec, min_le_right]
    · simp only [hS]
      simp [prismaticUnclamped, prismaticCdotVec]
    · have hcancel : ∀ (X : Vec2) (f1x f1y : ℚ),
          ((vadd X (f1x, f1y)).1 - f1x, (vadd X (f1x, f1y)).2 - f1y) = X := by
        intro X f1x f1y
        obtain ⟨x1, x2⟩ := X
        simp only [vadd, Prod.mk.injEq]
        refine ⟨by ring, by ring⟩
      simp only
      rw [hcancel]
      exact Solve22_sound j.m_K _ hdet
    · simp only
    · simp only
    · simp only
    · simp only

/-- C6 witness: a prismatic joint at its lower limit with a diagonal
nonsingular effective-mass matrix; the solved accumulated limit-row
impulse is non-negative. -/
theorem prismaticLimit_blockSolve_witness :
    prismaticJointW.m_enableLimit = true ∧
    prismaticJointW.m_limitState ≠ LimitState.e_inactiveLimit ∧
    0 ≤ (SolveVelocityConstraints prismaticJointW 1 prismaticVelW).1.m_impulse.z := by
  refine ⟨rfl, by decide, ?_⟩
  exact ((prismaticLimit_blockSolve prismaticJointW 1 prismaticVelW rfl (by decide)).2.1 rfl).2

/-- Helper: truncation toward zero is within distance one of its
argument, on both sides. -/
theorem truncToInt_sub_mem (x : ℝ) : x - truncToInt x ∈ Set.Ioo (-1 : ℝ) 1 := by
  unfold truncToInt
  rw [Set.mem_Ioo]
  by_cases h : 0 ≤ x
  · rw [if_pos h]
    have h1 := Int.floor_le x
    have h2 := Int.lt_floor_add_one x
    constructor <;> linarith
  · rw [if_neg h]
    have h1 := Int.le_ceil x
    have h2 := Int.ceil_lt_add_one x
    constructor <;> linarith

/-- Helper: the truncated modulo lies strictly between minus the
divisor and the divisor, for a positive divisor. -/
theorem moduloViaTrunc_mem (θ m : ℝ) (hm : 0 < m) :
    ModuloViaTrunc θ m ∈ Set.Ioo (-m) m := by
  unfold ModuloViaTrunc
  have h := truncToInt_sub_mem (θ / m)
  rw [Set.mem_Ioo] at h
  rw [Set.mem_Ioo]
  have key : θ - m * ((truncToInt (θ / m) : ℤ) : ℝ) =
      m * (θ / m - ((truncToInt (θ / m) : ℤ) : ℝ)) := by
    field_simp
  rw [key]
  constructor
  · nlinarith [h.1]
  · nlinarith [h.2]

/-- Helper: the normalized angle lies in the half-open interval
[-π, π). -/
theorem getNormalized_mem (θ : ℝ) :
    GetNormalized θ ∈ Set.Ico (-Real.pi) Real.pi := by
  have hpi := Real.pi_pos
  have h := moduloViaTrunc_mem θ (2 * Real.pi) (by linarith)
  rw [Set.mem_Ioo] at h
  simp only [GetNormalized]
  rw [Set.mem_Ico]
  by_cases h1 : ModuloViaTrunc θ (2 * Real.pi) ≥ Real.pi
  · rw [if_pos h1]
    constructor <;> linarith
  · rw [if_neg h1]
    by_cases h2 : ModuloViaTrunc θ (2 * Real.pi) < -Real.pi
    · rw [if_pos h2]
      constructor <;> linarith
    · rw [if_neg h2]
      have h3 := not_lt.mp h2
      have h4 := not_le.mp h1
      constructor <;> linarith

/-- Helper: the normalized angle differs from the input by an integer
number of full rotations. -/
theorem getNormalized_sub_int (θ : ℝ) :
    ∃ n : ℤ, GetNormalized θ = θ - 2 * Real.pi * n := by
  simp only [GetNormalized, ModuloViaTrunc]
  by_cases h1 : θ - 2 * Real.pi * (truncToInt (θ / (2 * Real.pi)) : ℝ) ≥ Real.pi
  · rw [if_pos h1]
    exact ⟨truncToInt (θ / (2 * Real.pi)) + 1, by push_cast; ring⟩
  · rw [if_neg h1]
    by_cases h2 : θ - 2 * Real.pi * (truncToInt (θ / (2 * Real.pi)) : ℝ) < -Real.pi
    · rw [if_pos h2]
      exact ⟨truncToInt (θ / (2 * Real.pi)) - 1, by push_cast; ring⟩
    · rw [if_neg h2]
      exact ⟨truncToInt (θ / (2 * Real.pi)), rfl⟩

/-- Helper: two values of [-π, π) differing by an integer multiple of
2π are equal. -/
theorem eq_of_mem_Ico_of_sub_int_mul (a b : ℝ)
    (ha : a ∈ Set.Ico (-Real.pi) Real.pi) (hb : b ∈ Set.Ico (-Real.pi) Real.pi)
    (n : ℤ) (h : a - b = 2 * Real.pi * n) : a = b := by
  rw [Set.mem_Ico] at ha hb
  have hpi := Real.pi_pos
  have habs : |a - b| < 2 * Real.pi := by
    rw [abs_lt]
    constructor <;> linarith [ha.1, ha.2, hb.1, hb.2]
  rw [h, abs_mul, abs_of_pos (by linarith : (0:ℝ) < 2 * Real.pi)] at habs
  have hn : n = 0 := by
    by_contra hne
    have h1 : (1:ℝ) ≤ |(n:ℝ)| := by
      rw [← Int.cast_abs]
      exact_mod_cast Int.one_le_abs hne
    nlinarith [abs_nonneg ((n:ℝ))]
  rw [hn] at h
  push_cast at h
  linarith

/-- C1 (amended): for every real angle θ the normalized angle lies in
the half-open interval [-π, +π), and normalization is invariant under
adding any integer number of full rotations. -/
theorem getNormalized_range_period (θ : ℝ) :
    GetNormalized θ ∈ Set.Ico (-Real.pi) Real.pi ∧
    ∀ k : ℤ, GetNormalized (θ + 2 * Real.pi * k) = GetNormalized θ := by
  refine ⟨getNormalized_mem θ, fun k => ?_⟩
  obtain ⟨n1, h1⟩ := getNormalized_sub_int (θ + 2 * Real.pi * k)
  obtain ⟨n2, h2⟩ := getNormalized_sub_int θ
  apply eq_of_mem_Ico_of_sub_int_mul _ _ (getNormalized_mem _) (getNormalized_mem _)
    (k - n1 + n2)
  rw [h1, h2]
  push_cast
  ring

/-- C1 counterexample: at θ = π the normalized angle is -π, which does
not lie in the claimed interval (-π, +π]. -/
theorem getNormalized_counterexample :
    GetNormalized Real.pi = -Real.pi ∧
    GetNormalized Real.pi ∉ Set.Ioc (-Real.pi) Real.pi := by
  have hpi := Real.pi_pos
  have htr : truncToInt (Real.pi / (2 * Real.pi)) = 0 := by
    have hhalf : Real.pi / (2 * Real.pi) = 1 / 2 := by
      have hne : Real.pi ≠ 0 := Real.pi_ne_zero
      field_simp
      ring
    rw [hhalf]
    unfold truncToInt
    rw [if_pos (by norm_num : (0:ℝ) ≤ 1 / 2)]
    rw [Int.floor_eq_zero_iff]
    rw [Set.mem_Ico]
    norm_num
  have hmod : ModuloViaTrunc Real.pi (2 * Real.pi) = Real.pi := by
    unfold ModuloViaTrunc
    rw [htr]
    push_cast
    ring
  have hval : GetNormalized Real.pi = -Real.pi := by
    simp only [GetNormalized]
    rw [hmod, if_pos (le_refl Real.pi)]
    ring
  refine ⟨hval, ?_⟩
  rw [hval, Set.mem_Ioc]
  intro hcontra
  exact absurd hcontra.1 (lt_irrefl _)

end PhysicsSpec
